import Mathlib

/-!
Verification development for the `sql_helper` text parser
(`src/parsing/text_parser.py`) and the type normalizer of
`src/backend/services/database_inspector.py`.

Modelling conventions (shallow embedding):
* Python strings are modelled as `List Char`; the stored schema values
  (`Field`, `Table`, `Relationship`) carry `String`, built with `toStr`.
* Python regular expressions are embedded as hand-written matchers that
  follow the (ASCII restriction of the) semantics of the concrete
  patterns appearing in the source, including greediness where it is
  observable.  `\w` and `\s` are modelled by their ASCII subsets.
* Python floats used for similarity scores are modelled as rationals;
  every reachable score is an exact multiple of 1/20, so no floating
  point rounding behaviour is observable.
-/

set_option allowUnsafeReducibility true
attribute [semireducible] Rat.mul Rat.add Rat.sub Rat.neg Rat.div Rat.inv Rat.floor Rat.blt

namespace SqlHelper

/-- ASCII subset of Python's `\s` / `str.strip` whitespace:
space, tab, newline, carriage return, vertical tab, form feed. -/
def pyIsSpace (c : Char) : Bool :=
  c = ' ' || c = '\t' || c = '\n' || c = '\r' || c = Char.ofNat 11 || c = Char.ofNat 12

/-- ASCII subset of Python's regex `\w` class. -/
def isWordChar (c : Char) : Bool :=
  ('a' ≤ c && c ≤ 'z') || ('A' ≤ c && c ≤ 'Z') || ('0' ≤ c && c ≤ '9') || c = '_'

/-- ASCII upper-casing, modelling `str.upper` on the inputs handled here. -/
def asciiUpper (c : Char) : Char :=
  if 'a' ≤ c && c ≤ 'z' then Char.ofNat (c.toNat - 32) else c

/-- ASCII lower-casing, modelling `str.lower`. -/
def asciiLower (c : Char) : Char :=
  if 'A' ≤ c && c ≤ 'Z' then Char.ofNat (c.toNat + 32) else c

def pyUpper (l : List Char) : List Char := l.map asciiUpper

def pyLower (l : List Char) : List Char := l.map asciiLower

/-- Python `str.strip(chars)`: drop characters satisfying `p` from both ends. -/
def pyStripP (p : Char → Bool) (l : List Char) : List Char :=
  ((l.dropWhile p).reverse.dropWhile p).reverse

/-- Python `str.strip()` (whitespace at both ends). -/
def pyStrip (l : List Char) : List Char := pyStripP pyIsSpace l

/-- Characters removed by `parts[0].strip('\x60"[]')` in `_parse_sql_fields`. -/
def sqlNameTrim (c : Char) : Bool :=
  c = Char.ofNat 96 || c = Char.ofNat 34 || c = '[' || c = ']'

/-- Python substring test `needle in haystack`. -/
def isSub (needle : List Char) : List Char → Bool
  | [] => needle.isEmpty
  | h :: t => needle.isPrefixOf (h :: t) || isSub needle t

/-- Split on a single character, keeping empty pieces (Python `str.split(',')`). -/
def splitOnCharAux (sep : Char) (cur : List Char) : List Char → List (List Char)
  | [] => [cur.reverse]
  | c :: rest =>
    if c = sep then cur.reverse :: splitOnCharAux sep [] rest
    else splitOnCharAux sep (c :: cur) rest

def splitOnChar (sep : Char) (l : List Char) : List (List Char) :=
  splitOnCharAux sep [] l

def splitComma (l : List Char) : List (List Char) := splitOnChar ',' l

/-- Python `str.split()` with no argument: whitespace runs, no empty pieces. -/
def pyWordsAux (cur : List Char) : List Char → List (List Char)
  | [] => if cur.isEmpty then [] else [cur.reverse]
  | c :: rest =>
    if pyIsSpace c then
      if cur.isEmpty then pyWordsAux [] rest else cur.reverse :: pyWordsAux [] rest
    else pyWordsAux (c :: cur) rest

def pyWords (l : List Char) : List (List Char) := pyWordsAux [] l

def toStr (l : List Char) : String := ⟨l⟩

def chars (s : String) : List Char := s.data

/-! ## Data model

Dictionaries built by `text_parser.py` have a fixed key set, so they are
modelled as structures with exactly those keys. -/

structure Field where
  name : String
  type : String
  primary_key : Bool
  foreign_key : Bool
  nullable : Bool
  reference : Option String
deriving DecidableEq, Repr

structure Table where
  name : String
  fields : List Field
deriving DecidableEq, Repr

/-- Relationship dictionaries: explicit ones carry no `confidence` key,
modelled by `confidence = none`. -/
structure Relationship where
  from_table : String
  from_field : String
  to_table : String
  to_field : String
  type : String
  detected : String
  confidence : Option ℚ
deriving DecidableEq, Repr

/-! ## SQL DDL strategy (`_extract_tables_sql`, `_parse_sql_fields`) -/

/-- Body of the per-line loop of `_parse_sql_fields`: a stripped non-empty
line yields one field when it has at least two whitespace-separated parts,
and nothing otherwise. -/
def sqlFieldOfLine (line : List Char) : List Field :=
  match pyWords line with
  | p0 :: p1 :: _ =>
    let lineU := pyUpper line
    [{ name := toStr (pyStripP sqlNameTrim p0)
     , type := toStr (pyUpper p1)
     , primary_key := isSub (chars "PRIMARY KEY") lineU
     , foreign_key := isSub (chars "FOREIGN KEY") lineU || isSub (chars "REFERENCES") lineU
     , nullable := !(isSub (chars "NOT NULL") lineU)
     , reference := none }]
  | _ => []

/-- Embedding of `TextParser._parse_sql_fields`: the block is split on every
comma (plain `str.split(',')`, not parenthesis-aware), each piece is
stripped, empty pieces are skipped, and each remaining piece is parsed by
`sqlFieldOfLine`. -/
def _parse_sql_fields (sql_block : List Char) : List Field :=
  (splitComma sql_block).flatMap (fun line0 =>
    let line := pyStrip line0
    if line.isEmpty then [] else sqlFieldOfLine line)

/-- Case-insensitive literal match at the head of the input; returns the
remainder on success. -/
def matchCI (pat : List Char) (l : List Char) : Option (List Char) :=
  match pat, l with
  | [], rest => some rest
  | _ :: _, [] => none
  | p :: ps, c :: cs => if asciiLower c = asciiLower p then matchCI ps cs else none

/-- Regex `\s+` at the head: requires at least one whitespace character and
consumes the maximal run. -/
def dropSpaces1 (l : List Char) : Option (List Char) :=
  match l with
  | c :: rest => if pyIsSpace c then some (rest.dropWhile pyIsSpace) else none
  | [] => none

/-- Match of `CREATE\s+TABLE\s+(\w+)\s*\(` (IGNORECASE) at the current
position; returns the captured table name and the text following the
opening parenthesis (the position of `match.end()`). -/
def matchCreate (l : List Char) : Option (List Char × List Char) :=
  (matchCI (chars "create") l).bind fun r1 =>
  (dropSpaces1 r1).bind fun r2 =>
  (matchCI (chars "table") r2).bind fun r3 =>
  (dropSpaces1 r3).bind fun r4 =>
  let name := r4.takeWhile isWordChar
  if name.isEmpty then none
  else
    match (r4.dropWhile isWordChar).dropWhile pyIsSpace with
    | '(' :: rest => some (name, rest)
    | _ => none

/-- Forward scan of `_extract_tables_sql` from `match.end()`: starting with
`paren_count = 1`, return the characters before the parenthesis that brings
the count back to zero; `none` when the parenthesis never closes. -/
def takeUntilClose : List Char → Nat → Option (List Char)
  | [], _ => none
  | c :: rest, depth =>
    if c = '(' then (takeUntilClose rest (depth + 1)).map (c :: ·)
    else if c = ')' then
      if depth = 0 then some []
      else (takeUntilClose rest (depth - 1)).map (c :: ·)
    else (takeUntilClose rest depth).map (c :: ·)

/-- Fuel-driven `finditer` loop for `create_table_pattern`.  On a match the
scan resumes at `match.end()` (just after the opening parenthesis), as
`re.finditer` does; when the closing parenthesis is missing the field block
is empty, mirroring `end_pos = start_pos` in the source. -/
def findCreatesAux : Nat → List Char → List Table
  | 0, _ => []
  | _ + 1, [] => []
  | fuel + 1, l@(_ :: rest) =>
    match matchCreate l with
    | some (name, after) =>
      let block := (takeUntilClose after 0).getD []
      { name := toStr name, fields := _parse_sql_fields block } :: findCreatesAux fuel after
    | none => findCreatesAux fuel rest

/-- Embedding of `TextParser._extract_tables_sql`. -/
def _extract_tables_sql (content : List Char) : List Table :=
  findCreatesAux (content.length + 1) content

/-! ## General-dialect field parsing
(`_parse_fields`, `_smart_split_fields`, `_parse_single_field`,
`_normalize_field_type`) -/

/-- Depth-tracking loop of `_smart_split_fields`: commas at parenthesis
depth zero separate fields; every emitted piece is stripped.  The trailing
accumulator is emitted only when non-empty (before stripping), matching
`if current_field:` in the source. -/
def smartSplitAux (cur : List Char) (depth : Int) : List Char → List (List Char)
  | [] => if cur.isEmpty then [] else [pyStrip cur.reverse]
  | c :: rest =>
    if c = '(' then smartSplitAux (c :: cur) (depth + 1) rest
    else if c = ')' then smartSplitAux (c :: cur) (depth - 1) rest
    else if c = ',' && depth = 0 then pyStrip cur.reverse :: smartSplitAux [] 0 rest
    else smartSplitAux (c :: cur) depth rest

/-- Embedding of `TextParser._smart_split_fields`. -/
def _smart_split_fields (fields_str : List Char) : List (List Char) :=
  smartSplitAux [] 0 fields_str

/-- Match of pattern 1 of `_parse_single_field`,
`re.match(r'(\w+)\s*\((.+)\)\s*$', field_str)`:
a maximal leading `\w+` run, optional whitespace, an opening parenthesis,
then — because `(.+)` cannot cross a newline and is followed by `\)\s*$` —
a non-empty newline-free body ending at the last `)` that is followed only
by whitespace.  Returns the two capture groups. -/
def pattern1Match (l : List Char) : Option (List Char × List Char) :=
  let name := l.takeWhile isWordChar
  if name.isEmpty then none
  else
    match (l.dropWhile isWordChar).dropWhile pyIsSpace with
    | '(' :: rest =>
      match rest.reverse.dropWhile pyIsSpace with
      | ')' :: revMid =>
        let mid := revMid.reverse
        if mid.isEmpty || mid.contains '\n' then none else some (name, mid)
      | _ => none
    | _ => none

/-- Search for `fk\s*->\s*(\w+)` (IGNORECASE) anywhere in the input
(`relationship_pattern.search`); returns the captured target name. -/
def fkRefSearch : List Char → Option (List Char)
  | [] => none
  | l@(_ :: rest) =>
    let attempt :=
      (matchCI (chars "fk") l).bind fun r1 =>
      match (r1.dropWhile pyIsSpace) with
      | '-' :: '>' :: r2 =>
        let name := (r2.dropWhile pyIsSpace).takeWhile isWordChar
        if name.isEmpty then none else some name
      | _ => none
    match attempt with
    | some name => some name
    | none => fkRefSearch rest

/-- Whole-word, case-insensitive, non-overlapping removal of `kw`,
embedding `re.sub(r'\b' + re.escape(kw) + r'\b', '', s, flags=IGNORECASE)`.
`prev` is the character of the original string preceding the scan position
(word boundaries are judged on the original string).  Fuel-driven because a
match consumes `kw.length` characters at once. -/
def removeKWAux (kw : List Char) : Nat → Option Char → List Char → List Char
  | 0, _, l => l
  | _ + 1, _, [] => []
  | fuel + 1, prev, c :: rest =>
    let boundaryBefore :=
      match prev with
      | none => true
      | some p => !(isWordChar p)
    let hit :=
      boundaryBefore &&
      kw.isPrefixOf (pyLower (List.take kw.length (c :: rest))) &&
      (match (c :: rest).drop kw.length with
       | [] => true
       | nxt :: _ => !(isWordChar nxt))
    if hit then
      removeKWAux kw fuel ((c :: rest).take kw.length).getLast? ((c :: rest).drop kw.length)
    else
      c :: removeKWAux kw fuel (some c) rest

def removeKW (kw : List Char) (l : List Char) : List Char :=
  removeKWAux kw (l.length + 1) none l

/-- Recognized type prefixes guarding keyword removal in
`_normalize_field_type`. -/
def typePrefixes : List (List Char) :=
  [chars "VARCHAR", chars "CHAR", chars "NUMBER", chars "DATE", chars "INT"]

def keywordsToRemove : List (List Char) :=
  [chars "pk", chars "primary key", chars "fk", chars "foreign key",
   chars "nullable", chars "not null"]

/-- Embedding of `TextParser._normalize_field_type`.  Note that the
`keyword in type_lower` test uses the lower-casing of the *original*
(stripped) string, while the `startswith` guard re-examines the current
string on every iteration, exactly as in the source. -/
def _normalize_field_type (type_str0 : List Char) : List Char :=
  let t1 := pyStrip type_str0
  let tlow := pyLower t1
  let final := keywordsToRemove.foldl
    (fun cur kw =>
      if isSub kw tlow &&
         !(typePrefixes.any (fun p => p.isPrefixOf (pyUpper cur))) then
        removeKW kw cur
      else cur) t1
  let collapsed := List.intercalate [' '] (pyWords final)
  if collapsed.isEmpty then chars "unknown" else collapsed

/-- Result of `re.split(r'\s+', s, maxsplit=1)`: split at the first
whitespace run, when one exists. -/
def pySplitMax1 (l : List Char) : List (List Char) :=
  let before := l.takeWhile (fun c => !(pyIsSpace c))
  let rest := l.dropWhile (fun c => !(pyIsSpace c))
  match rest with
  | [] => [l]
  | _ :: _ => [before, rest.dropWhile pyIsSpace]

/-- Embedding of `TextParser._parse_single_field`: three ordered patterns
(parenthesized type, whitespace-separated name/type, bare name). -/
def _parse_single_field (field_str : List Char) : Option Field :=
  match pattern1Match field_str with
  | some (name, mid) =>
    let raw := pyStrip mid
    let ftype := _normalize_field_type raw
    let tl := pyLower raw
    let isPK := isSub (chars "pk") tl || isSub (chars "primary key") tl
    let isFK := isSub (chars "fk") tl || isSub (chars "foreign key") tl
    let isNullable := isSub (chars "null") tl && !(isSub (chars "not null") tl)
    some { name := toStr name
         , type := toStr ftype
         , primary_key := isPK
         , foreign_key := isFK
         , nullable := if isNullable || isPK || isFK then isNullable else true
         , reference := (fkRefSearch raw).map toStr }
  | none =>
    match pySplitMax1 field_str with
    | [n, t] =>
      some { name := toStr (pyStrip n)
           , type := toStr (_normalize_field_type (pyStrip t))
           , primary_key := false, foreign_key := false
           , nullable := true, reference := none }
    | [_] =>
      some { name := toStr (pyStrip field_str)
           , type := "unknown"
           , primary_key := false, foreign_key := false
           , nullable := true, reference := none }
    | _ => none

/-- Embedding of `TextParser._parse_fields`. -/
def _parse_fields (fields_str : List Char) : List Field :=
  (_smart_split_fields (pyStrip fields_str)).flatMap (fun part0 =>
    let part := pyStrip part0
    if part.isEmpty then []
    else
      match _parse_single_field part with
      | some f => [f]
      | none => [])

/-! ## Implicit relationship detection
(`_detect_implicit_relationships`, `_calculate_field_similarity` and its
helper predicates) -/

/-- Replacement of every run of underscores by a single underscore,
embedding `re.sub(r'_+', '_', name)`. -/
def collapseUnderscoresAux : Bool → List Char → List Char
  | _, [] => []
  | prevU, c :: rest =>
    if c = '_' then
      if prevU then collapseUnderscoresAux true rest
      else '_' :: collapseUnderscoresAux true rest
    else c :: collapseUnderscoresAux false rest

/-- Embedding of `TextParser._normalize_field_name`:
upper-case, strip, collapse underscore runs. -/
def _normalize_field_name (name : List Char) : List Char :=
  collapseUnderscoresAux false (pyStrip (pyUpper name))

/-- Static abbreviation table of `_are_abbreviations`. -/
def abbreviationTable : List (List Char × List Char) :=
  [ (chars "LCT", chars "LANCAMENTO")
  , (chars "CTZ", chars "CONTABILIZACAO")
  , (chars "FLC", chars "FLC")
  , (chars "FOL", chars "FOLHA")
  , (chars "LIN", chars "LINHA")
  , (chars "ORG", chars "ORIGEM")
  , (chars "CTB", chars "CONTABIL")
  , (chars "CNTBL", chars "CONTABIL")
  , (chars "LACTO", chars "LANCAMENTO") ]

def expandAbbrev (n : List Char) : List Char :=
  match abbreviationTable.find? (fun p => p.1 == n) with
  | some p => p.2
  | none => n

/-- Embedding of `TextParser._are_abbreviations`. -/
def _are_abbreviations (n1 n2 : List Char) : Bool :=
  let e1 := expandAbbrev n1
  let e2 := expandAbbrev n2
  e1 == e2 || isSub e1 e2 || isSub e2 e1

/-- Domain prefixes recognized by the similarity heuristic. -/
def domainPrefixList : List (List Char) :=
  [ chars "COD_", chars "NUM_", chars "ID_", chars "IND_", chars "DAT_"
  , chars "SGL_", chars "DSC_", chars "VLR_", chars "QTD_", chars "ANO_"
  , chars "MES_" ]

/-- Embedding of `TextParser._has_common_prefix`. -/
def _has_common_prefix (n1 n2 : List Char) : Bool :=
  domainPrefixList.any (fun pre =>
    pre.isPrefixOf n1 && pre.isPrefixOf n2 &&
    (let s1 := n1.drop pre.length
     let s2 := n2.drop pre.length
     isSub s1 s2 || isSub s2 s1 || _are_abbreviations s1 s2))

def stopWords : List (List Char) :=
  [ chars "DE", chars "DO", chars "DA", chars "EM", chars "A", chars "O"
  , chars "E", chars "PARA", chars "COM" ]

/-- Embedding of `TextParser._shares_keywords`.  Python sets are modelled
as deduplicated lists (only cardinalities are observed); the float test
`len(inter)/min(len1,len2) >= 0.5` is exact for these small integers and
is modelled as `2*|inter| >= min`. -/
def _shares_keywords (n1 n2 : List Char) : Bool :=
  let w1 := ((splitOnChar '_' n1).dedup).filter (fun w => !(stopWords.contains w))
  let w2 := ((splitOnChar '_' n2).dedup).filter (fun w => !(stopWords.contains w))
  let inter := w1.filter (fun w => w2.contains w)
  if 2 ≤ inter.length then true
  else if 0 < w1.length && 0 < w2.length then
    decide (min w1.length w2.length ≤ 2 * inter.length)
  else false

/-- Embedding of `DatabaseInspector`-style base-type extraction used by
`TextParser._get_base_type` (`re.match(r'^(\w+)', type_str)` then upper). -/
def _get_base_type (type_str : List Char) : List Char :=
  let w := type_str.takeWhile isWordChar
  if w.isEmpty then pyUpper type_str else pyUpper w

def numericTypes : List (List Char) :=
  [ chars "NUMBER", chars "INTEGER", chars "INT", chars "DECIMAL"
  , chars "NUMERIC", chars "FLOAT" ]

def stringTypes : List (List Char) :=
  [ chars "VARCHAR", chars "VARCHAR2", chars "CHAR", chars "TEXT", chars "STRING" ]

def dateTypes : List (List Char) :=
  [ chars "DATE", chars "DATETIME", chars "TIMESTAMP" ]

/-- Embedding of `TextParser._are_types_compatible`. -/
def _are_types_compatible (type1 type2 : List Char) : Bool :=
  let b1 := _get_base_type (pyUpper type1)
  let b2 := _get_base_type (pyUpper type2)
  b1 == b2 ||
  (numericTypes.contains b1 && numericTypes.contains b2) ||
  (stringTypes.contains b1 && stringTypes.contains b2) ||
  (dateTypes.contains b1 && dateTypes.contains b2)

/-- Embedding of `TextParser._calculate_field_similarity`; scores are
rationals standing for the Python floats (all reachable values are exact). -/
def _calculate_field_similarity (name1 name2 type1 type2 : String) : ℚ :=
  let c1 := _normalize_field_name name1.data
  let c2 := _normalize_field_name name2.data
  let score : ℚ :=
    if c1 = c2 then 1
    else if isSub c1 c2 || isSub c2 c1 then 4/5
    else if _has_common_prefix c1 c2 then 3/4
    else if _shares_keywords c1 c2 then 7/10
    else 0
  if 0 < score ∧ _are_types_compatible type1.data type2.data = false then score / 2
  else score

/-- Python `round` to the nearest integer with banker's (half-to-even)
tie-breaking, on rationals. -/
def pyRound (q : ℚ) : ℤ :=
  let fl := q.floor
  let frac := q - fl
  if frac < 1/2 then fl
  else if 1/2 < frac then fl + 1
  else if fl % 2 = 0 then fl else fl + 1

/-- Python `round(x, 2)`; every reachable score is an exact multiple of
1/100, so the float behaviour is represented exactly. -/
def roundTo2 (q : ℚ) : ℚ := (pyRound (q * 100) : ℚ) / 100

/-- Inner two loops of `_detect_implicit_relationships` for a fixed pair of
tables: every field pair scoring at least 0.7 yields a relationship. -/
def fieldRels (t1 t2 : Table) : List Relationship :=
  t1.fields.flatMap (fun f1 =>
    t2.fields.filterMap (fun f2 =>
      let s := _calculate_field_similarity f1.name f2.name f1.type f2.type
      if 7/10 ≤ s then
        some { from_table := t1.name, from_field := f1.name
             , to_table := t2.name, to_field := f2.name
             , type := "possible_foreign_key", detected := "implicit"
             , confidence := some (roundTo2 s) }
      else none))

/-- Outer loop of `_detect_implicit_relationships`: each table is compared
with every strictly later table (`tables[i + 1:]`). -/
def pairLoop : List Table → List Relationship
  | [] => []
  | t :: ts => ts.flatMap (fun t2 => fieldRels t t2) ++ pairLoop ts

/-- Embedding of `TextParser._detect_implicit_relationships`. -/
def _detect_implicit_relationships (tables : List Table) : List Relationship :=
  if tables.length < 2 then [] else pairLoop tables

/-! ## Generic position scanners for `re.search` / `re.finditer` -/

/-- Fuel-driven `re.finditer` over matchers that return a value and the
remainder; yields the value together with `match.start()` and
`match.end()`.  The scan resumes at `match.end()` (all embedded matchers
consume at least one character). -/
def finditerAux (m : List Char → Option (α × List Char)) :
    Nat → Nat → List Char → List (α × Nat × Nat)
  | 0, _, _ => []
  | _ + 1, _, [] => []
  | fuel + 1, pos, l@(_ :: rest) =>
    match m l with
    | some (a, after) =>
      let len := l.length - after.length
      (a, pos, pos + len) :: finditerAux m fuel (pos + len) after
    | none => finditerAux m fuel (pos + 1) rest

def finditerPos (m : List Char → Option (α × List Char)) (content : List Char) :
    List (α × Nat × Nat) :=
  finditerAux m (content.length + 1) 0 content

/-- Fuel-driven `re.search`: first position where the matcher succeeds. -/
def searchAux (m : List Char → Option α) : Nat → List Char → Option α
  | 0, _ => none
  | _ + 1, [] => none
  | fuel + 1, l@(_ :: rest) =>
    match m l with
    | some a => some a
    | none => searchAux m fuel rest

def search (m : List Char → Option α) (content : List Char) : Option α :=
  searchAux m (content.length + 1) content

/-- Python `content.find(needle, start)` (case-sensitive literal). -/
def findSubAux (needle : List Char) : Nat → Nat → List Char → Option Nat
  | 0, _, _ => none
  | _ + 1, pos, [] => if needle.isEmpty then some pos else none
  | fuel + 1, pos, l@(_ :: rest) =>
    if needle.isPrefixOf l then some pos else findSubAux needle fuel (pos + 1) rest

def strFindFrom (content needle : List Char) (start : Nat) : Option Nat :=
  findSubAux needle (content.length + 1) start (content.drop start)

def sliceFrom (content : List Char) (start fin : Nat) : List Char :=
  (content.drop start).take (fin - start)

/-! ## Key-value and Markdown strategies -/

/-- Maximal non-empty `\w+` run at the head. -/
def wordRun1 (l : List Char) : Option (List Char × List Char) :=
  let w := l.takeWhile isWordChar
  if w.isEmpty then none else some (w, l.drop w.length)

/-- Match of `KW:\s*(\w+)` at the head for one fixed keyword (one branch of
`table_pattern` / `db_pattern`); returns the capture and the remainder. -/
def matchMarkerWith (kw : List Char) (l : List Char) : Option (List Char × List Char) :=
  (matchCI kw l).bind fun r1 =>
  match r1 with
  | ':' :: r2 => wordRun1 (r2.dropWhile pyIsSpace)
  | _ => none

/-- Match of `(?:tabela|table):\s*(\w+)` (IGNORECASE) at the head. -/
def matchKVMarker (l : List Char) : Option (List Char × List Char) :=
  match matchMarkerWith (chars "tabela") l with
  | some r => some r
  | none => matchMarkerWith (chars "table") l

/-- Match of the capture of `KW:\s*(.+)` for one fixed keyword: after the
colon, `\s*` is greedy; since `(.+)` needs one non-newline character,
either the text after the whitespace run starts the capture (running to
the end of its line), or — at end of input — `\s*` gives back its
trailing non-newline characters, which then form the capture. -/
def matchFieldMarkerWith (kw : List Char) (l : List Char) : Option (List Char) :=
  (matchCI kw l).bind fun r1 =>
  match r1 with
  | ':' :: r2 =>
    let ws := r2.takeWhile pyIsSpace
    match r2.drop ws.length with
    | [] =>
      let tailNoNl := (ws.reverse.takeWhile (fun c => !(c = '\n'))).reverse
      if tailNoNl.isEmpty then none else some tailNoNl
    | after => some (after.takeWhile (fun c => !(c = '\n')))
  | _ => none

/-- Search of `field_pattern`, `(?:campos|fields|colunas|columns):\s*(.+)`. -/
def fieldSearch (content : List Char) : Option (List Char) :=
  search (fun l =>
    match matchFieldMarkerWith (chars "campos") l with
    | some r => some r
    | none =>
      match matchFieldMarkerWith (chars "fields") l with
      | some r => some r
      | none =>
        match matchFieldMarkerWith (chars "colunas") l with
        | some r => some r
        | none => matchFieldMarkerWith (chars "columns") l) content

/-- Block loop of `_extract_tables_key_value`: each `tabela:` match opens a
block ending at the next match's start, or — for the last block — at
`content.find("relacionamentos:", table_start)` (end of text if absent). -/
def kvBuild (content : List Char) : List (List Char × Nat × Nat) → List Table
  | [] => []
  | (name, start, _) :: rest =>
    let tend :=
      match rest with
      | (_, nstart, _) :: _ => nstart
      | [] =>
        match strFindFrom content (chars "relacionamentos:") start with
        | some p => p
        | none => content.length
    let block := sliceFrom content start tend
    let fields :=
      match fieldSearch block with
      | some fstr => _parse_fields fstr
      | none => []
    { name := toStr name, fields := fields } :: kvBuild content rest

/-- Embedding of `TextParser._extract_tables_key_value`. -/
def _extract_tables_key_value (content : List Char) : List Table :=
  kvBuild content (finditerPos matchKVMarker content)

/-- Match of `#+\s*(?:tabela|table):\s*(\w+)` at the head. -/
def matchMdMarker (l : List Char) : Option (List Char × List Char) :=
  let hashes := l.takeWhile (fun c => c = '#')
  if hashes.isEmpty then none
  else matchKVMarker ((l.drop hashes.length).dropWhile pyIsSpace)

/-- Block loop of `_extract_tables_markdown`: blocks run from `match.end()`
to the next match's start (end of text for the last block). -/
def mdBuild (content : List Char) : List (List Char × Nat × Nat) → List Table
  | [] => []
  | (name, _, mend) :: rest =>
    let tend :=
      match rest with
      | (_, nstart, _) :: _ => nstart
      | [] => content.length
    let block := sliceFrom content mend tend
    let fields :=
      match fieldSearch block with
      | some fstr => _parse_fields fstr
      | none => []
    { name := toStr name, fields := fields } :: mdBuild content rest

/-- Embedding of `TextParser._extract_tables_markdown`. -/
def _extract_tables_markdown (content : List Char) : List Table :=
  mdBuild content (finditerPos matchMdMarker content)

/-! ## Explicit relationships (`_extract_relationships`) -/

/-- Match of `(\w+)\.(\w+)\s*->\s*(\w+)\.(\w+)` at the head; returns the
four captures and the remainder. -/
def matchRelArrow (l : List Char) :
    Option ((List Char × List Char × List Char × List Char) × List Char) :=
  (wordRun1 l).bind fun (w1, r1) =>
  match r1 with
  | '.' :: r2 =>
    (wordRun1 r2).bind fun (w2, r3) =>
    (match r3.dropWhile pyIsSpace with
     | '-' :: '>' :: r4 =>
       (wordRun1 (r4.dropWhile pyIsSpace)).bind fun (w3, r5) =>
       match r5 with
       | '.' :: r6 =>
         (wordRun1 r6).bind fun (w4, r7) => some ((w1, w2, w3, w4), r7)
       | _ => none
     | _ => none)
  | _ => none

/-- Relationship dictionary built for one arrow match. -/
def relQuad (q : List Char × List Char × List Char × List Char) : Relationship :=
  { from_table := toStr q.1, from_field := toStr q.2.1
  , to_table := toStr q.2.2.1, to_field := toStr q.2.2.2
  , type := "foreign_key", detected := "explicit", confidence := none }

/-- Duplicate test of the section scan.  The source compares the key
strings `"a.b->c.d"`; since all four components are `\w+` captures (no
dots or arrows inside), key equality is componentwise equality. -/
def sameQuad (q : List Char × List Char × List Char × List Char)
    (r : Relationship) : Bool :=
  r.from_table == toStr q.1 && r.from_field == toStr q.2.1 &&
  r.to_table == toStr q.2.2.1 && r.to_field == toStr q.2.2.2

/-- Group capture of `(?:.*\n)*?` bounded by the lookahead
`(?=\n\s*\n|\n\s*(?:tabela|table):|$)` under `re.MULTILINE`: because `$`
matches before any newline, the lazy line run stops at the first line
start that is the end of input or a bare newline; a final line without a
newline cannot be absorbed, so the match fails there (modelled as no
section). -/
def collectLines : Nat → List Char → Option (List Char)
  | 0, _ => none
  | _ + 1, [] => some []
  | fuel + 1, l@(c :: _) =>
    if c = '\n' then some []
    else
      let line := l.takeWhile (fun c => !(c = '\n'))
      match l.drop line.length with
      | '\n' :: rest => (collectLines fuel rest).map (fun g => line ++ '\n' :: g)
      | _ => none

/-- Match of `rel_section_pattern` at the head:
`(?:relacionamentos|relationships):\s*\n((?:.*\n)*?)(?=...)`.  The greedy
`\s*` followed by a literal `\n` consumes the following whitespace run up
to and including its last newline (failing when the run has none). -/
def matchRelSection (l : List Char) : Option (List Char) :=
  let kw :=
    match matchCI (chars "relacionamentos") l with
    | some r => some r
    | none => matchCI (chars "relationships") l
  kw.bind fun r1 =>
  match r1 with
  | ':' :: r2 =>
    let ws := r2.takeWhile pyIsSpace
    if ws.contains '\n' then
      let afterNl := ws.reverse.takeWhile (fun c => !(c = '\n'))
      let body := r2.drop (ws.length - afterNl.length)
      collectLines (body.length + 1) body
    else none
  | _ => none

/-- Line loop of the section scan: strip, skip blank and `#` lines, search
the arrow pattern, and append the relationship unless its four-tuple is
already present. -/
def sectionLoop : List (List Char) → List Relationship → List Relationship
  | [], acc => acc
  | line :: rest, acc =>
    let l := pyStrip line
    if l.isEmpty || l.head? == some '#' then sectionLoop rest acc
    else
      match search (fun s => (matchRelArrow s).map (·.1)) l with
      | none => sectionLoop rest acc
      | some q =>
        if acc.any (sameQuad q) then sectionLoop rest acc
        else sectionLoop rest (acc ++ [relQuad q])

/-- Embedding of `TextParser._extract_relationships`. -/
def _extract_relationships (content : List Char) : List Relationship :=
  let inline := (finditerPos matchRelArrow content).map (fun x => relQuad x.1)
  match search matchRelSection content with
  | none => inline
  | some sec => sectionLoop (splitOnChar '\n' sec) inline

/-! ## Metadata, format detection, validation, and `parse` -/

/-- Metadata dictionary.  The source adds `detected_format` inside `parse`;
`_extract_metadata` leaves it at the placeholder `""`.  No timestamp or
other wall-clock value is ever stored. -/
structure Metadata where
  source : String
  line_count : Nat
  char_count : Nat
  detected_format : String
  database_name : Option String
deriving DecidableEq, Repr

/-- Search of `db_pattern`, `(?:banco|database|db):\s*(\w+)`. -/
def dbNameSearch (content : List Char) : Option (List Char) :=
  search (fun l =>
    match matchMarkerWith (chars "banco") l with
    | some r => some r.1
    | none =>
      match matchMarkerWith (chars "database") l with
      | some r => some r.1
      | none => (matchMarkerWith (chars "db") l).map (·.1)) content

/-- Embedding of `TextParser._extract_metadata`. -/
def _extract_metadata (content : List Char) : Metadata :=
  { source := "text"
  , line_count := (splitOnChar '\n' content).length
  , char_count := content.length
  , detected_format := ""
  , database_name := (dbNameSearch content).map toStr }

/-- Embedding of `TextParser._detect_format` (decision order: SQL DDL,
Markdown, key-value, unknown; all patterns searched in the stripped text). -/
def _detect_format (content : List Char) : String :=
  let cleaned := pyStrip content
  if (search matchCreate cleaned).isSome then "sql_ddl"
  else if (search matchMdMarker cleaned).isSome then "markdown"
  else if (search matchKVMarker cleaned).isSome && (fieldSearch cleaned).isSome then
    "key_value"
  else "unknown"

/-- Embedding of `TextParser._extract_tables_smart`. -/
def _extract_tables_smart (content : List Char) (format_type : String) : List Table :=
  if format_type = "key_value" then _extract_tables_key_value content
  else if format_type = "sql_ddl" then _extract_tables_sql content
  else if format_type = "markdown" then _extract_tables_markdown content
  else
    let t1 := _extract_tables_key_value content
    if t1.isEmpty then
      let t2 := _extract_tables_sql content
      if t2.isEmpty then _extract_tables_markdown content else t2
    else t1

/-- Embedding of `TextParser._validate_and_clean_tables`: tables with a
falsy (empty) name are skipped, every other table is kept as is (tables
with zero fields are only logged). -/
def _validate_and_clean_tables : List Table → List Table
  | [] => []
  | t :: ts =>
    if t.name = "" then _validate_and_clean_tables ts
    else t :: _validate_and_clean_tables ts

structure ParseResult where
  tables : List Table
  relationships : List Relationship
  metadata : Metadata
deriving DecidableEq, Repr

/-- Embedding of `TextParser.parse`: detect the format, extract tables,
collect explicit then implicit relationships, build the metadata, and
validate the tables.  The source's logging calls carry no data flow and
are omitted. -/
def parse (content : List Char) : ParseResult :=
  let format_type := _detect_format content
  let tables := _extract_tables_smart content format_type
  let relationships :=
    _extract_relationships content ++ _detect_implicit_relationships tables
  let metadata := { _extract_metadata content with detected_format := format_type }
  { tables := _validate_and_clean_tables tables
  , relationships := relationships
  , metadata := metadata }

/-! ## TypeNormalizer (`DatabaseInspector._normalize_type`,
`src/backend/services/database_inspector.py`) -/

def TYPE_MAPPING : List (List Char × List Char) :=
  [ (chars "INT", chars "int"), (chars "INTEGER", chars "int")
  , (chars "BIGINT", chars "bigint"), (chars "SMALLINT", chars "smallint")
  , (chars "TINYINT", chars "tinyint"), (chars "DECIMAL", chars "decimal")
  , (chars "NUMERIC", chars "numeric"), (chars "FLOAT", chars "float")
  , (chars "DOUBLE", chars "double"), (chars "REAL", chars "real")
  , (chars "VARCHAR", chars "varchar"), (chars "CHAR", chars "char")
  , (chars "TEXT", chars "text"), (chars "LONGTEXT", chars "text")
  , (chars "MEDIUMTEXT", chars "text"), (chars "TINYTEXT", chars "text")
  , (chars "NVARCHAR", chars "varchar"), (chars "NCHAR", chars "char")
  , (chars "DATE", chars "date"), (chars "DATETIME", chars "datetime")
  , (chars "TIMESTAMP", chars "timestamp"), (chars "TIME", chars "time")
  , (chars "BOOLEAN", chars "boolean"), (chars "BOOL", chars "boolean")
  , (chars "BIT", chars "boolean"), (chars "JSON", chars "json")
  , (chars "JSONB", chars "json"), (chars "BLOB", chars "blob")
  , (chars "BINARY", chars "binary"), (chars "UUID", chars "uuid") ]

/-- Embedding of `DatabaseInspector._normalize_type`: the leading `[A-Z]+`
run of the upper-cased string is looked up in `TYPE_MAPPING`; unmapped or
missing base tokens fall back to the lower-cased input. -/
def _normalize_type (sql_type : List Char) : List Char :=
  let up := pyUpper sql_type
  let base := up.takeWhile (fun c => 'A' ≤ c && c ≤ 'Z')
  if base.isEmpty then pyLower sql_type
  else
    match TYPE_MAPPING.find? (fun p => p.1 == base) with
    | some p => p.2
    | none => pyLower sql_type

/-! ## Concrete fixtures used by witnesses and counterexamples -/

def fldUsuarioInt : Field :=
  { name := "usuario_id", type := "INT", primary_key := false
  , foreign_key := false, nullable := true, reference := none }

def fldUsuarioDate : Field :=
  { name := "usuario_id", type := "DATE", primary_key := false
  , foreign_key := false, nullable := true, reference := none }

def fldUsuarioIntB : Field :=
  { name := "usuario_id", type := "int", primary_key := false
  , foreign_key := false, nullable := true, reference := none }

def tabA : Table := { name := "a", fields := [fldUsuarioInt] }

def tabB : Table := { name := "b", fields := [fldUsuarioDate] }

def tabC : Table := { name := "c", fields := [fldUsuarioIntB] }

def wContent : List Char := chars "CREATE TABLE a (x INT)\nCREATE TABLE b (x INT)"

def wRel : Relationship :=
  { from_table := "a", from_field := "x", to_table := "b", to_field := "x"
  , type := "possible_foreign_key", detected := "implicit", confidence := some 1 }

def fldAInt : Field :=
  { name := "a", type := "INT", primary_key := false
  , foreign_key := false, nullable := true, reference := none }

def fldSolo : Field :=
  { name := "solo", type := "unknown", primary_key := false
  , foreign_key := false, nullable := true, reference := none }

def relUsuarioAC : Relationship :=
  { from_table := "a", from_field := "usuario_id"
  , to_table := "c", to_field := "usuario_id"
  , type := "possible_foreign_key", detected := "implicit", confidence := some 1 }

/-! ## Helper lemmas about the similarity score and the detector loops -/

lemma sim_value_cases (n1 n2 t1 t2 : String) :
    _calculate_field_similarity n1 n2 t1 t2 = 0 ∨
    _calculate_field_similarity n1 n2 t1 t2 = 7/20 ∨
    _calculate_field_similarity n1 n2 t1 t2 = 3/8 ∨
    _calculate_field_similarity n1 n2 t1 t2 = 2/5 ∨
    _calculate_field_similarity n1 n2 t1 t2 = 1/2 ∨
    _calculate_field_similarity n1 n2 t1 t2 = 7/10 ∨
    _calculate_field_similarity n1 n2 t1 t2 = 3/4 ∨
    _calculate_field_similarity n1 n2 t1 t2 = 4/5 ∨
    _calculate_field_similarity n1 n2 t1 t2 = 1 := by
  simp only [_calculate_field_similarity]
  split_ifs <;> norm_num

lemma roundTo2_bounds {s : ℚ}
    (hv : s = 0 ∨ s = 7/20 ∨ s = 3/8 ∨ s = 2/5 ∨ s = 1/2 ∨
          s = 7/10 ∨ s = 3/4 ∨ s = 4/5 ∨ s = 1) :
    0 ≤ roundTo2 s ∧ roundTo2 s ≤ 1 := by
  rcases hv with h | h | h | h | h | h | h | h | h <;> subst h <;>
    exact ⟨by decide, by decide⟩

/-- Every relationship emitted for a fixed table pair carries that pair's
names, field names drawn from the respective tables, the `implicit` tag,
and a confidence in the unit interval. -/
lemma fieldRels_shape {t1 t2 : Table} {r : Relationship} (h : r ∈ fieldRels t1 t2) :
    r.from_table = t1.name ∧ r.to_table = t2.name ∧
    r.from_field ∈ t1.fields.map Field.name ∧
    r.to_field ∈ t2.fields.map Field.name ∧
    r.detected = "implicit" ∧
    ∃ q, r.confidence = some q ∧ 0 ≤ q ∧ q ≤ 1 := by
  rcases List.mem_flatMap.1 h with ⟨f1, hf1, h2⟩
  rcases List.mem_filterMap.1 h2 with ⟨f2, hf2, hsome⟩
  by_cases hc :
      (7 : ℚ)/10 ≤ _calculate_field_similarity f1.name f2.name f1.type f2.type
  · rw [if_pos hc] at hsome
    obtain rfl : _ = r := Option.some.inj hsome
    refine ⟨rfl, rfl, List.mem_map.2 ⟨f1, hf1, rfl⟩, List.mem_map.2 ⟨f2, hf2, rfl⟩,
      rfl, roundTo2 _, rfl, ?_⟩
    exact roundTo2_bounds (sim_value_cases _ _ _ _)
  · rw [if_neg hc] at hsome
    exact absurd hsome (by simp)

/-- Every relationship produced by the pair loop joins an earlier table to
a strictly later one. -/
lemma pairLoop_mem {r : Relationship} :
    ∀ ts : List Table, r ∈ pairLoop ts →
    ∃ i j t1 t2, i < j ∧ ts.get? i = some t1 ∧ ts.get? j = some t2 ∧
      r.from_table = t1.name ∧ r.to_table = t2.name ∧
      r.from_field ∈ t1.fields.map Field.name ∧
      r.to_field ∈ t2.fields.map Field.name ∧
      r.detected = "implicit" ∧
      ∃ q, r.confidence = some q ∧ 0 ≤ q ∧ q ≤ 1 := by
  intro ts
  induction ts with
  | nil => intro h; exact absurd h (List.not_mem_nil r)
  | cons t ts ih =>
    intro h
    rcases List.mem_append.1 h with h | h
    · rcases List.mem_flatMap.1 h with ⟨t2, ht2, hr⟩
      rcases List.get?_of_mem ht2 with ⟨k, hk⟩
      obtain ⟨hft, htt, hff, htf, hdet, hconf⟩ := fieldRels_shape hr
      exact ⟨0, k + 1, t, t2, Nat.succ_pos k, rfl, hk, hft, htt, hff, htf, hdet, hconf⟩
    · obtain ⟨i, j, t1, t2, hij, h1, h2, rest⟩ := ih h
      exact ⟨i + 1, j + 1, t1, t2, Nat.succ_lt_succ hij, h1, h2, rest⟩

lemma detect_implicit_sub_pairLoop {r : Relationship} {ts : List Table}
    (h : r ∈ _detect_implicit_relationships ts) : r ∈ pairLoop ts := by
  unfold _detect_implicit_relationships at h
  by_cases hl : ts.length < 2
  · rw [if_pos hl] at h; exact absurd h (List.not_mem_nil r)
  · rwa [if_neg hl] at h

lemma fieldRels_sub_pairLoop {r : Relationship} {t1 t2 : Table}
    (hr : r ∈ fieldRels t1 t2) :
    ∀ (pre rest : List Table), t2 ∈ rest → r ∈ pairLoop (pre ++ t1 :: rest) := by
  intro pre
  induction pre with
  | nil =>
    intro rest ht2
    exact List.mem_append_left _ (List.mem_flatMap.2 ⟨t2, ht2, hr⟩)
  | cons p pre ih =>
    intro rest ht2
    exact List.mem_append_right _ (ih rest ht2)

lemma sim_same_name_of_compatible {n t1 t2 : String}
    (hc : _are_types_compatible t1.data t2.data = true) :
    _calculate_field_similarity n n t1 t2 = 1 := by
  simp only [_calculate_field_similarity, hc]
  norm_num

/-- Every relationship of the section scan is already in the accumulator
or was built by `relQuad`. -/
lemma sectionLoop_mem {r : Relationship} :
    ∀ (lines : List (List Char)) (acc : List Relationship),
      r ∈ sectionLoop lines acc → r ∈ acc ∨ ∃ q, r = relQuad q := by
  intro lines
  induction lines with
  | nil => intro acc h; exact Or.inl h
  | cons line rest ih =>
    intro acc h
    simp only [sectionLoop] at h
    split at h
    · exact ih acc h
    · split at h
      · exact ih acc h
      · split at h
        · exact ih acc h
        · rcases ih _ h with hin | hq
          · rcases List.mem_append.1 hin with hin | hin
            · exact Or.inl hin
            · exact Or.inr ⟨_, List.mem_singleton.1 hin⟩
          · exact Or.inr hq

lemma extract_relationships_explicit {r : Relationship} {c : List Char}
    (h : r ∈ _extract_relationships c) :
    r.detected = "explicit" ∧ r.confidence = none := by
  have hq : ∃ q, r = relQuad q := by
    unfold _extract_relationships at h
    split at h
    · rcases List.mem_map.1 h with ⟨x, _, hx⟩
      exact ⟨x.1, hx.symm⟩
    · rcases sectionLoop_mem _ _ h with hin | hq
      · rcases List.mem_map.1 hin with ⟨x, _, hx⟩
        exact ⟨x.1, hx.symm⟩
      · exact hq
  obtain ⟨q, rfl⟩ := hq
  exact ⟨rfl, rfl⟩

/-- Pattern 3 of `_parse_single_field` is a catch-all: the parser returns a
field for every input fragment (the `None` fall-through is unreachable,
since `re.split(..., maxsplit=1)` yields one or two parts). -/
lemma parse_single_isSome (s : List Char) : (_parse_single_field s).isSome = true := by
  unfold _parse_single_field
  rcases hp : pattern1Match s with _ | ⟨name, mid⟩
  · unfold pySplitMax1
    cases hr : s.dropWhile (fun c => !(pyIsSpace c)) with
    | nil => rfl
    | cons c rest => rfl
  · rfl

/-! ## Claim theorems -/

/-- Claim C1 (code bug evidence).  Evaluating the SQL-DDL strategy on the
block `CREATE TABLE t (a INT, b DECIMAL(10,2) NOT NULL)` shows that the
comma inside `DECIMAL(10,2)` DOES split the column list: the plain
`split(',')` of `_parse_sql_fields` produces three fields — `a`, a field
`b` of truncated type `DECIMAL(10` that is still nullable, and a spurious
field named `2)` of type `NOT` that absorbs the `NOT NULL` — instead of
the two fields (with `b` not nullable) required by the claim. -/
theorem sql_ddl_comma_split_eval :
    _extract_tables_sql (chars "CREATE TABLE t (a INT, b DECIMAL(10,2) NOT NULL)") =
      [{ name := "t"
       , fields :=
          [{ name := "a", type := "INT", primary_key := false, foreign_key := false
           , nullable := true, reference := none }
          ,{ name := "b", type := "DECIMAL(10", primary_key := false, foreign_key := false
           , nullable := true, reference := none }
          ,{ name := "2)", type := "NOT", primary_key := false, foreign_key := false
           , nullable := false, reference := none }] }] := by decide

/-- Claim C2 (counterexample).  Parsing the fragment `id (int, pk)` does
not give type `int` and does not give `nullable = true`: the `pk` token is
kept inside the type (the type starts with the recognized prefix `INT`, so
keyword stripping is skipped) and the explicit `pk` flag without any
`null` token forces `nullable = false`. -/
theorem paren_field_type_counterexample :
    (_parse_single_field (chars "id (int, pk)")).map Field.type ≠ some "int" ∧
    (_parse_single_field (chars "id (int, pk)")).map Field.nullable ≠ some true :=
  ⟨by decide, by decide⟩

/-- Claim C2 (amended).  The fragment `id (int, pk)` parses to name `id`,
type `"int, pk"`, `primary_key = true`, and `nullable = false`. -/
theorem paren_field_id_int_pk_eval :
    _parse_single_field (chars "id (int, pk)") =
      some { name := "id", type := "int, pk", primary_key := true, foreign_key := false
           , nullable := false, reference := none } := by decide

/-- Claim C3 (counterexample).  The field stored for `CREATE TABLE t (a INT)`
has type `"INT"`, while the TypeNormalizer maps `INT` to the canonical
lower-case token `"int"`: stored types are not TypeNormalizer outputs. -/
theorem stored_type_not_normalized :
    (parse (chars "CREATE TABLE t (a INT)")).tables =
      [{ name := "t"
       , fields :=
          [{ name := "a", type := "INT", primary_key := false, foreign_key := false
           , nullable := true, reference := none }] }] ∧
    toStr (_normalize_type (chars "INT")) = "int" ∧
    ("INT" : String) ≠ "int" :=
  ⟨by decide, by decide, by decide⟩

/-- Claim C3 (amended).  The parser applies no canonical type table: every
SQL-DDL field stores the raw second whitespace token upper-cased
(parameters attached), and every general-dialect field stores a
`_normalize_field_type` output (keyword-conditionally-stripped raw text,
case preserved; `unknown` for a bare name). -/
theorem stored_type_characterization :
    (∀ (block : List Char) (f : Field), f ∈ _parse_sql_fields block →
      ∃ item p0 p1 rest, item ∈ splitComma block ∧
        pyWords (pyStrip item) = p0 :: p1 :: rest ∧
        f.type = toStr (pyUpper p1)) ∧
    (∀ (s : List Char) (f : Field), _parse_single_field s = some f →
      ∃ raw, f.type = toStr (_normalize_field_type raw)) := by
  constructor
  · intro block f hf
    unfold _parse_sql_fields at hf
    rcases List.mem_flatMap.1 hf with ⟨item, hitem, hmem⟩
    by_cases he : (pyStrip item).isEmpty
    · simp only [he, if_true] at hmem
      exact absurd hmem (List.not_mem_nil f)
    · cases hw : pyWords (pyStrip item) with
      | nil => simp [he, sqlFieldOfLine, hw] at hmem
      | cons p0 tl =>
        cases tl with
        | nil => simp [he, sqlFieldOfLine, hw] at hmem
        | cons p1 rest =>
          simp [he, sqlFieldOfLine, hw] at hmem
          exact ⟨item, p0, p1, rest, hitem, hw, by rw [hmem]⟩
  · intro s f hf
    unfold _parse_single_field at hf
    rcases hp : pattern1Match s with _ | ⟨name, mid⟩
    · rw [hp] at hf
      unfold pySplitMax1 at hf
      cases hr : s.dropWhile (fun c => !(pyIsSpace c)) with
      | nil =>
        rw [hr] at hf
        have hrec := Option.some.inj hf
        refine ⟨[], ?_⟩
        rw [← hrec]
        show ("unknown" : String) = toStr (_normalize_field_type [])
        decide
      | cons c rest =>
        rw [hr] at hf
        have hrec := Option.some.inj hf
        exact ⟨pyStrip ((c :: rest).dropWhile pyIsSpace), by rw [← hrec]⟩
    · rw [hp] at hf
      have hrec := Option.some.inj hf
      exact ⟨pyStrip mid, by rw [← hrec]⟩

/-- Claim C3 (witness).  Instantiation of `stored_type_characterization`
at the SQL block `a INT` and at the bare-name fragment `solo`. -/
theorem stored_type_characterization_witness :
    (fldAInt ∈ _parse_sql_fields (chars "a INT") ∧
      ∃ item p0 p1 rest, item ∈ splitComma (chars "a INT") ∧
        pyWords (pyStrip item) = p0 :: p1 :: rest ∧
        fldAInt.type = toStr (pyUpper p1)) ∧
    (_parse_single_field (chars "solo") = some fldSolo ∧
      ∃ raw, fldSolo.type = toStr (_normalize_field_type raw)) :=
  ⟨⟨by decide, stored_type_characterization.1 (chars "a INT") fldAInt (by decide)⟩,
   ⟨by decide, stored_type_characterization.2 (chars "solo") fldSolo (by decide)⟩⟩

/-- Claim C4 (counterexample).  Two tables whose only fields are both
literally named `usuario_id` but with incompatible declared types (`INT`
vs `DATE`): the 1.0 name score is halved to 0.5, below the 0.7 threshold,
so no implicit relationship at all is emitted — refuting "always emits
... confidence exactly 1.0 regardless of the fields' declared types". -/
theorem usuario_id_incompatible_no_rel :
    tabA.fields.map Field.name = ["usuario_id"] ∧
    tabB.fields.map Field.name = ["usuario_id"] ∧
    tabA.name ≠ tabB.name ∧
    _detect_implicit_relationships [tabA, tabB] = [] :=
  ⟨by decide, by decide, by decide, by decide⟩

/-- Claim C4 (amended).  Whenever two distinct tables of the schema each
contain a field literally named `usuario_id` and the two fields' declared
types are compatible, the detector emits an implicit relationship between
them with confidence exactly 1.0 (with incompatible types the halved
score 0.5 falls below the threshold and nothing is emitted). -/
theorem usuario_id_compatible_confidence_one
    (pre mid post : List Table) (t1 t2 : Table) (f1 f2 : Field)
    (h1 : f1 ∈ t1.fields) (h2 : f2 ∈ t2.fields)
    (n1 : f1.name = "usuario_id") (n2 : f2.name = "usuario_id")
    (hc : _are_types_compatible f1.type.data f2.type.data = true) :
    ({ from_table := t1.name, from_field := "usuario_id"
     , to_table := t2.name, to_field := "usuario_id"
     , type := "possible_foreign_key", detected := "implicit"
     , confidence := some 1 } : Relationship) ∈
      _detect_implicit_relationships (pre ++ t1 :: (mid ++ t2 :: post)) := by
  have hround : roundTo2 1 = 1 := by decide
  have hsim : _calculate_field_similarity f1.name f2.name f1.type f2.type = 1 := by
    rw [n1, n2]
    exact sim_same_name_of_compatible hc
  have hmem : ({ from_table := t1.name, from_field := "usuario_id"
               , to_table := t2.name, to_field := "usuario_id"
               , type := "possible_foreign_key", detected := "implicit"
               , confidence := some 1 } : Relationship) ∈ fieldRels t1 t2 := by
    refine List.mem_flatMap.2 ⟨f1, h1, List.mem_filterMap.2 ⟨f2, h2, ?_⟩⟩
    show (if (7 : ℚ)/10 ≤ _calculate_field_similarity f1.name f2.name f1.type f2.type then
            some ({ from_table := t1.name, from_field := f1.name
                  , to_table := t2.name, to_field := f2.name
                  , type := "possible_foreign_key", detected := "implicit"
                  , confidence := some (roundTo2
                      (_calculate_field_similarity f1.name f2.name f1.type f2.type)) }
              : Relationship)
          else none) =
        some ({ from_table := t1.name, from_field := "usuario_id"
              , to_table := t2.name, to_field := "usuario_id"
              , type := "possible_foreign_key", detected := "implicit"
              , confidence := some 1 } : Relationship)
    rw [hsim, hround, if_pos (by norm_num : (7 : ℚ)/10 ≤ 1), n1, n2]
  have hpair := fieldRels_sub_pairLoop hmem pre (mid ++ t2 :: post) (by simp)
  unfold _detect_implicit_relationships
  rw [if_neg]
  · exact hpair
  · simp only [List.length_append, List.length_cons]
    omega

/-- Claim C4 (witness).  Instantiation at the two-table schema
`[tabA, tabC]`, both containing a `usuario_id` field with compatible
integer types. -/
theorem usuario_id_compatible_confidence_one_witness :
    fldUsuarioInt ∈ tabA.fields ∧ fldUsuarioIntB ∈ tabC.fields ∧
    fldUsuarioInt.name = "usuario_id" ∧ fldUsuarioIntB.name = "usuario_id" ∧
    _are_types_compatible fldUsuarioInt.type.data fldUsuarioIntB.type.data = true ∧
    relUsuarioAC ∈ _detect_implicit_relationships [tabA, tabC] :=
  ⟨by decide, by decide, by decide, by decide, by decide,
   usuario_id_compatible_confidence_one [] [] [] tabA tabC fldUsuarioInt fldUsuarioIntB
     (by decide) (by decide) (by decide) (by decide) (by decide)⟩

/-- Claim C5.  Every implicit relationship in the parse result carries a
confidence, and that confidence lies in the closed interval 0 to 1. -/
theorem implicit_confidence_unit_interval (c : List Char) (r : Relationship)
    (hr : r ∈ (parse c).relationships) (him : r.detected = "implicit") :
    ∃ q, r.confidence = some q ∧ 0 ≤ q ∧ q ≤ 1 := by
  have hsplit : (parse c).relationships =
      _extract_relationships c ++
        _detect_implicit_relationships (_extract_tables_smart c (_detect_format c)) := rfl
  rw [hsplit] at hr
  rcases List.mem_append.1 hr with h | h
  · have hex := (extract_relationships_explicit h).1
    rw [him] at hex
    exact absurd hex (by decide)
  · obtain ⟨i, j, t1, t2, hij, h1, h2, hft, htt, hff, htf, hdet, hconf⟩ :=
      pairLoop_mem _ (detect_implicit_sub_pairLoop h)
    exact hconf

/-- Claim C5 (witness).  Instantiation at a two-table SQL input whose
single implicit relationship has confidence 1. -/
theorem implicit_confidence_unit_interval_witness :
    wRel ∈ (parse wContent).relationships ∧ wRel.detected = "implicit" ∧
    ∃ q, wRel.confidence = some q ∧ 0 ≤ q ∧ q ≤ 1 :=
  ⟨by decide, by decide,
   implicit_confidence_unit_interval wContent wRel (by decide) (by decide)⟩

/-- Claim C6.  Validation is exactly the filter that drops empty-named
tables (tables with zero fields included, every kept table unchanged), the
final tables are the validated extraction, and the relationship list of
the result is assembled before validation and is untouched by it. -/
theorem validation_drops_only_unnamed :
    (∀ ts : List Table,
      _validate_and_clean_tables ts = ts.filter (fun t => !(t.name == ""))) ∧
    (∀ c : List Char, (parse c).tables =
      _validate_and_clean_tables (_extract_tables_smart c (_detect_format c))) ∧
    (∀ c : List Char, (parse c).relationships =
      _extract_relationships c ++
        _detect_implicit_relationships (_extract_tables_smart c (_detect_format c))) := by
  refine ⟨?_, fun c => rfl, fun c => rfl⟩
  intro ts
  induction ts with
  | nil => rfl
  | cons t ts ih =>
    by_cases h : t.name = ""
    · simp [_validate_and_clean_tables, h, ih, List.filter_cons]
    · simp [_validate_and_clean_tables, h, ih, List.filter_cons]

/-- Claim C7.  A fragment that is empty after trimming yields no field;
every non-empty trimmed fragment yields exactly one field (the bare-name
pattern is a catch-all, so the field count equals the number of non-empty
trimmed fragments and nothing non-empty is ever dropped). -/
theorem nonempty_fragment_never_dropped :
    (∀ s : List Char, pyStrip s ≠ [] →
      (_parse_single_field (pyStrip s)).isSome = true) ∧
    (∀ fs : List Char, (_parse_fields fs).length =
      ((_smart_split_fields (pyStrip fs)).filter
        (fun p => !(pyStrip p).isEmpty)).length) := by
  constructor
  · intro s _
    exact parse_single_isSome _
  · intro fs
    unfold _parse_fields
    generalize _smart_split_fields (pyStrip fs) = L
    induction L with
    | nil => rfl
    | cons p L ih =>
      rw [List.flatMap_cons, List.length_append, ih, List.filter_cons]
      by_cases hp : (pyStrip p).isEmpty
      · simp [hp]
      · have h := parse_single_isSome (pyStrip p)
        rcases Option.isSome_iff_exists.1 h with ⟨f, hf⟩
        simp [hp, hf, Nat.add_comm]

/-- Claim C7 (witness).  Instantiation at the fragment `" id (int) "`. -/
theorem nonempty_fragment_never_dropped_witness :
    pyStrip (chars " id (int) ") ≠ [] ∧
    (_parse_single_field (pyStrip (chars " id (int) "))).isSome = true :=
  ⟨by decide, nonempty_fragment_never_dropped.1 (chars " id (int) ") (by decide)⟩

/-- Claim C8.  Parsing is deterministic: the embedding is a pure function
(the source performs a single pass with no randomness, retries, or clock
reads, and the metadata record has no timestamp field), so two invocations
on identical input give identical tables, relationships, and metadata. -/
theorem parse_deterministic (c1 c2 : List Char) (h : c1 = c2) :
    (parse c1).tables = (parse c2).tables ∧
    (parse c1).relationships = (parse c2).relationships ∧
    (parse c1).metadata = (parse c2).metadata := by
  subst h
  exact ⟨rfl, rfl, rfl⟩

/-- Claim C8 (witness).  Instantiation at a concrete SQL input. -/
theorem parse_deterministic_witness :
    wContent = wContent ∧
    ((parse wContent).tables = (parse wContent).tables ∧
     (parse wContent).relationships = (parse wContent).relationships ∧
     (parse wContent).metadata = (parse wContent).metadata) :=
  ⟨rfl, parse_deterministic wContent wContent rfl⟩

/-- Claim C9.  Every emitted implicit relationship joins two distinct
table entries, with the `from` table strictly earlier in the schema's
table sequence than the `to` table (so no self-relation of an entry and
no reversed orientation), and the two field names are drawn from the
respective tables. -/
theorem implicit_rel_table_order (ts : List Table) (r : Relationship)
    (hr : r ∈ _detect_implicit_relationships ts) :
    ∃ i j t1 t2, i < j ∧ ts.get? i = some t1 ∧ ts.get? j = some t2 ∧
      r.from_table = t1.name ∧ r.to_table = t2.name ∧
      r.from_field ∈ t1.fields.map Field.name ∧
      r.to_field ∈ t2.fields.map Field.name := by
  obtain ⟨i, j, t1, t2, hij, h1, h2, hft, htt, hff, htf, hdet, hconf⟩ :=
    pairLoop_mem ts (detect_implicit_sub_pairLoop hr)
  exact ⟨i, j, t1, t2, hij, h1, h2, hft, htt, hff, htf⟩

/-- Claim C9 (witness).  Instantiation at the schema `[tabA, tabC]` and
its single implicit relationship. -/
theorem implicit_rel_table_order_witness :
    relUsuarioAC ∈ _detect_implicit_relationships [tabA, tabC] ∧
    ∃ i j t1 t2, i < j ∧ [tabA, tabC].get? i = some t1 ∧
      [tabA, tabC].get? j = some t2 ∧
      relUsuarioAC.from_table = t1.name ∧ relUsuarioAC.to_table = t2.name ∧
      relUsuarioAC.from_field ∈ t1.fields.map Field.name ∧
      relUsuarioAC.to_field ∈ t2.fields.map Field.name :=
  ⟨by decide, implicit_rel_table_order [tabA, tabC] relUsuarioAC (by decide)⟩

/-- Claim C10 (counterexample).  For the block `b DECIMAL(10,2)` the unique
top-level (depth-aware) item is the whole block, whose second whitespace
token upper-cases to `DECIMAL(10,2)`; the SQL field parser nevertheless
stores type `DECIMAL(10`, because it splits on every comma rather than on
top-level commas only. -/
theorem sql_item_top_level_split_false :
    _smart_split_fields (chars "b DECIMAL(10,2)") = [chars "b DECIMAL(10,2)"] ∧
    _parse_sql_fields (chars "b DECIMAL(10,2)") =
      [{ name := "b", type := "DECIMAL(10", primary_key := false, foreign_key := false
       , nullable := true, reference := none }] ∧
    ("DECIMAL(10" : String) ≠ "DECIMAL(10,2)" :=
  ⟨by decide, by decide, by decide⟩

/-- Claim C10 (amended).  Splitting is on every comma (nested parentheses
included): each comma-separated item with at least two whitespace tokens
yields exactly one field, items with fewer yield none, and table-level
constraint clauses come out as spurious fields — `PRIMARY KEY (id)` as a
field named `PRIMARY` of type `KEY` with `primary_key = true`, and
`FOREIGN KEY (x) REFERENCES t(y)` as a field named `FOREIGN` of type
`KEY` with `foreign_key = true`. -/
theorem sql_comma_item_field_count :
    (∀ block : List Char, (_parse_sql_fields block).length =
      ((splitComma block).filter
        (fun item => decide (2 ≤ (pyWords (pyStrip item)).length))).length) ∧
    _parse_sql_fields (chars "x INT, PRIMARY KEY (id)") =
      [{ name := "x", type := "INT", primary_key := false, foreign_key := false
       , nullable := true, reference := none }
      ,{ name := "PRIMARY", type := "KEY", primary_key := true, foreign_key := false
       , nullable := true, reference := none }] ∧
    _parse_sql_fields (chars "FOREIGN KEY (x) REFERENCES t(y)") =
      [{ name := "FOREIGN", type := "KEY", primary_key := false, foreign_key := true
       , nullable := true, reference := none }] := by
  refine ⟨?_, by decide, by decide⟩
  intro block
  unfold _parse_sql_fields
  generalize splitComma block = L
  induction L with
  | nil => rfl
  | cons item L ih =>
    rw [List.flatMap_cons, List.length_append, ih, List.filter_cons]
    by_cases he : (pyStrip item).isEmpty
    · have hw : pyStrip item = [] := by
        cases hx : pyStrip item with
        | nil => rfl
        | cons a b => rw [hx] at he; exact absurd he (by simp)
      simp [he, hw, pyWords, pyWordsAux]
    · cases hw : pyWords (pyStrip item) with
      | nil => simp [he, sqlFieldOfLine, hw]
      | cons p0 tl =>
        cases tl with
        | nil => simp [he, sqlFieldOfLine, hw]
        | cons p1 rest =>
          simp [he, sqlFieldOfLine, hw]
          omega

end SqlHelper
